import Mathlib

/-!
Shallow embedding of `scripts/update_dashboard.py` (SemanticGAN dashboard
metrics pipeline) and verification of the frozen claims about it.

Modelling conventions:
* Python floats are modelled by `ℚ`; `round(x, n)` is modelled by rounding
  `x * 10^n` to the nearest integer (Mathlib's `round`, which differs from
  Python's ties-to-even only on exact half ties, which none of the claims
  exercise).
* The Python `set` of `hash("h\th\tt")` values is modelled as a `Finset` of
  the joined key strings, i.e. the hash is treated as injective.
* File I/O is modelled at the value boundary: the reference-corpus file is
  `Option (List String)` (its lines, `none` when absent), the generated
  batch arrives already parsed as `List ScoredTriple` (`none` when no
  `generated*.txt` file exists), and the mappings file is a `FileState`
  (missing / unparsable / parsed value).
-/

namespace Dashboard

/-- A parsed line of a generated batch: `(h, r, t, score)` from
`synthetic_triples.append((h, r, t, score))`. -/
structure ScoredTriple where
  h : String
  r : String
  t : String
  score : ℚ
deriving DecidableEq, Repr

/-- The membership key `f"{h}\t{r}\t{t}"` used for the novelty check and the
uniqueness count. -/
def tripleKey (x : ScoredTriple) : String :=
  x.h ++ "\t" ++ x.r ++ "\t" ++ x.t

/-- State produced by the reference-corpus loading block (lines 57-77):
`real_triples_set`, `all_relations`, `novelty_check_active`. -/
structure CorpusState where
  realSet : Finset String
  allRelations : Finset String
  active : Bool
deriving DecidableEq

/-- One iteration of the corpus-reading loop: `p = line.strip().split('\t')`,
kept only `if len(p) == 3`, contributing the joined key and the relation. -/
def parseCorpusLine (line : String) : Option (String × String) :=
  match line.trim.splitOn "\t" with
  | [a, b, c] => some (a ++ "\t" ++ b ++ "\t" ++ c, b)
  | _ => none

/-- The corpus loader: absent file gives the inactive empty state; a present
file is scanned line by line (the `MemoryError` degraded path is a runtime
resource event and is not reachable in this value-level model, but arbitrary
`CorpusState` values cover its outcome). -/
def loadCorpus : Option (List String) → CorpusState
  | none => ⟨∅, ∅, false⟩
  | some lines =>
    let parsed := lines.filterMap parseCorpusLine
    ⟨(parsed.map Prod.fst).toFinset, (parsed.map Prod.snd).toFinset, true⟩

/-- Model of Python `round(q, 2)`. -/
def round2 (q : ℚ) : ℚ := ((round (q * 100) : ℤ) : ℚ) / 100

/-- Model of Python `round(q, 4)`. -/
def round4 (q : ℚ) : ℚ := ((round (q * 10000) : ℤ) : ℚ) / 10000

/-- The guarded percentage `(num / den) * 100 if den > 0 else 0` used by every
ratio statistic. -/
def pct (num den : ℕ) : ℚ :=
  if 0 < den then ((num : ℚ) / (den : ℚ)) * 100 else 0

/-- Model of `novel_count` (lines 82-88): count of keys absent from the corpus when the
check is active, the whole batch size otherwise. -/
def novelCount (cs : CorpusState) (b : List ScoredTriple) : ℕ :=
  if cs.active then b.countP (fun x => decide (tripleKey x ∉ cs.realSet))
  else b.length

/-- Model of `novelty_score` (line 91). -/
def noveltyScore (cs : CorpusState) (b : List ScoredTriple) : ℚ :=
  pct (novelCount cs b) b.length

/-- Model of `overlap_score` (lines 90, 92), with `overlap_count = total - novel_count`. -/
def overlapScore (cs : CorpusState) (b : List ScoredTriple) : ℚ :=
  pct (b.length - novelCount cs b) b.length

/-- Model of `unique_triples` (line 94): the number of distinct joined keys. -/
def uniqueCount (b : List ScoredTriple) : ℕ :=
  ((b.map tripleKey).dedup).length

/-- Model of `uniqueness_score` (line 95). -/
def uniquenessScore (b : List ScoredTriple) : ℚ :=
  pct (uniqueCount b) b.length

/-- The relation of each generated triple, in batch order. -/
def relsOf (b : List ScoredTriple) : List String :=
  b.map (fun x => x.r)

/-- Model of `used_relations = len(rel_counts)` (line 98). -/
def usedRelations (b : List ScoredTriple) : ℕ :=
  ((relsOf b).dedup).length

/-- Model of `total_relations = len(all_relations) if all_relations else 15` (line 99):
Python truthiness makes the fallback fire exactly when the collected set is
empty. -/
def totalRelations (cs : CorpusState) : ℕ :=
  if cs.allRelations = ∅ then 15 else cs.allRelations.card

/-- Model of `relation_diversity` (line 100). -/
def relationDiversity (cs : CorpusState) (b : List ScoredTriple) : ℚ :=
  if 0 < totalRelations cs then
    ((usedRelations b : ℚ) / (totalRelations cs : ℚ)) * 100
  else 0

/-- One row of `relation_freq` (lines 102-105). -/
structure RelFreqEntry where
  relation : String
  count : ℕ
  percent : ℚ
deriving DecidableEq, Repr

/-- The sort key of `relation_freq.sort(key=lambda x: x["relation"])`. -/
def relLE (e₁ e₂ : RelFreqEntry) : Prop :=
  e₁.relation ≤ e₂.relation

instance : DecidableRel relLE :=
  fun e₁ e₂ => inferInstanceAs (Decidable (e₁.relation ≤ e₂.relation))

instance : IsTrans RelFreqEntry relLE :=
  ⟨fun _ _ _ h₁ h₂ => le_trans h₁ h₂⟩

instance : IsTotal RelFreqEntry relLE :=
  ⟨fun e₁ e₂ => le_total e₁.relation e₂.relation⟩

/-- Model of `relation_freq` (lines 97, 102-106): `Counter` items (distinct relations
with their multiplicities), each with its rounded percentage, sorted by
relation.  The pre-sort order is irrelevant because the sort keys are the
distinct relations themselves. -/
def relationFreq (b : List ScoredTriple) : List RelFreqEntry :=
  let rels := relsOf b
  let entries := rels.dedup.map fun rel =>
    { relation := rel, count := rels.count rel
      percent := round2 (pct (rels.count rel) b.length) : RelFreqEntry }
  List.insertionSort relLE entries

/-- Model of `avg_distance` (line 108): mean score, `0` on an empty batch. -/
def avgDistance (b : List ScoredTriple) : ℚ :=
  if 0 < b.length then (b.map (fun x => x.score)).sum / (b.length : ℚ) else 0

/-- The `relation_tail_rules` dict (lines 110-115). -/
def relation_tail_rules (r : String) : Option String :=
  if r = "dblp:hasAuthor" then some "author"
  else if r = "dblp:hasEditor" then some "author"
  else if r = "dblp:conferenceSeries" then some "venue/conf"
  else if r = "dblp:journalID" then some "venue/journal"
  else if r = "dblp:listedIn" then some "venue"
  else if r = "dblp:presentedAt" then some "venue"
  else if r = "dblp:publishedInJournal" then some "venue"
  else if r = "dblp:publishedInYear" then some "year"
  else if r = "dblp:conferenceYear" then some "year"
  else if r = "dblp:cites" then some "pub"
  else if r = "dblp:coauthorWith" then some "author"
  else if r = "dblp:affiliation" then some "org"
  else if r = "rdf:type" then some "dblp"
  else none

/-- The codepoint ranges accepted by Python `str.isdigit` (CPython 3.11,
Unicode `Numeric_Type` Digit or Decimal), extracted exhaustively from the
runtime: the decimal digits `0`-`9` plus superscripts and subscripts,
circled digits, and every script's digit block. -/
def pyDigitRanges : List (ℕ × ℕ) :=
  [(48, 57), (178, 179), (185, 185), (1632, 1641), (1776, 1785),
   (1984, 1993), (2406, 2415), (2534, 2543), (2662, 2671), (2790, 2799),
   (2918, 2927), (3046, 3055), (3174, 3183), (3302, 3311), (3430, 3439),
   (3558, 3567), (3664, 3673), (3792, 3801), (3872, 3881), (4160, 4169),
   (4240, 4249), (4969, 4977), (6112, 6121), (6160, 6169), (6470, 6479),
   (6608, 6618), (6784, 6793), (6800, 6809), (6992, 7001), (7088, 7097),
   (7232, 7241), (7248, 7257), (8304, 8304), (8308, 8313), (8320, 8329),
   (9312, 9320), (9332, 9340), (9352, 9360), (9450, 9450), (9461, 9469),
   (9471, 9471), (10102, 10110), (10112, 10120), (10122, 10130),
   (42528, 42537), (43216, 43225), (43264, 43273), (43472, 43481),
   (43504, 43513), (43600, 43609), (44016, 44025), (65296, 65305),
   (66720, 66729), (68160, 68163), (68912, 68921), (69216, 69224),
   (69714, 69722), (69734, 69743), (69872, 69881), (69942, 69951),
   (70096, 70105), (70384, 70393), (70736, 70745), (70864, 70873),
   (71248, 71257), (71360, 71369), (71472, 71481), (71904, 71913),
   (72016, 72025), (72784, 72793), (73040, 73049), (73120, 73129),
   (92768, 92777), (92864, 92873), (93008, 93017), (120782, 120831),
   (123200, 123209), (123632, 123641), (125264, 125273), (127232, 127242),
   (130032, 130041)]

/-- Whether Python `str.isdigit` accepts the character `c`: its codepoint
lies in one of the Unicode digit ranges (a strict superset of the decimal
digits `0`-`9`; e.g. `'²'` and `'٣'` are accepted). -/
def pyCharIsDigit (c : Char) : Bool :=
  pyDigitRanges.any (fun p => decide (p.1 ≤ c.toNat ∧ c.toNat ≤ p.2))

/-- Python `str.isdigit`: true iff the string is non-empty and every
character is a Unicode digit character. -/
def pyIsDigit (s : String) : Bool :=
  !s.data.isEmpty && s.data.all pyCharIsDigit

/-- Python `sub in s`: substring containment. -/
def strIn (sub s : String) : Bool :=
  decide (List.IsInfix sub.data s.data)

/-- The per-triple schema check (lines 117-126). -/
def tripleIsValid (x : ScoredTriple) : Bool :=
  match relation_tail_rules x.r with
  | none => true
  | some rule =>
    if rule = "year" then pyIsDigit x.t
    else if rule = "author" then strIn "author" x.t
    else true

/-- Model of `schema_validity` (line 128). -/
def schemaValidity (b : List ScoredTriple) : ℚ :=
  pct (b.countP tripleIsValid) b.length

/-- Python `dict.get(k, k)` on an association list (first binding wins, the
raw key is the fallback). -/
def dictGet (m : List (String × String)) (k : String) : String :=
  match m.find? (fun p => p.1 == k) with
  | some p => p.2
  | none => k

/-- Fuel-indexed kernel of Python `str.replace`: scan left to right, replace
each non-overlapping occurrence of `pat`.  The fuel (initialised to the length
of the scanned list) only guards termination; each step consumes at least one
character for non-empty `pat`. -/
def replaceAllAux (pat rep : List Char) : ℕ → List Char → List Char
  | _, [] => []
  | 0, s => s
  | fuel + 1, c :: cs =>
    if pat.isPrefixOf (c :: cs) then
      rep ++ replaceAllAux pat rep fuel (List.drop pat.length (c :: cs))
    else c :: replaceAllAux pat rep fuel cs

/-- Python `s.replace(pat, rep)` for non-empty `pat` (here always `"dblp:"`). -/
def pyReplace (s pat rep : String) : String :=
  String.mk (replaceAllAux pat.data rep.data s.data.length s.data)

/-- The decimal digit character of `d % 10`. -/
def natDigitChar (d : ℕ) : Char := Char.ofNat (48 + d % 10)

/-- Four zero-padded decimal digits of `k % 10000`. -/
def pad4 (k : ℕ) : List Char :=
  [natDigitChar (k / 1000), natDigitChar (k / 100), natDigitChar (k / 10), natDigitChar k]

/-- Model of `f"{score:.4f}"` over `ℚ`: round to 4 decimal places and render
with exactly four fractional digits. -/
def formatScore4 (q : ℚ) : String :=
  let n : ℤ := round (q * 10000)
  (if n < 0 then "-" else "") ++ toString (n.natAbs / 10000) ++ "." ++
    String.mk (pad4 (n.natAbs % 10000))

/-- One entry of `decoded_hypotheses` (lines 142-148). -/
structure Hypothesis where
  head : String
  relation : String
  tail : String
  score : String
  is_novel : Bool
deriving DecidableEq, Repr

/-- The body of the decoding loop (lines 131-148) for one triple. -/
def decodeHyp (idToName : List (String × String)) (cs : CorpusState)
    (x : ScoredTriple) : Hypothesis :=
  { head := dictGet idToName x.h
    relation := pyReplace x.r "dblp:" ""
    tail := dictGet idToName x.t
    score := formatScore4 x.score
    is_novel := if cs.active then decide (tripleKey x ∉ cs.realSet) else true }

/-- Model of `decoded_hypotheses` (lines 130-148): the loop breaks at index 200, so it
decodes exactly the first 200 triples in file order. -/
def decodedHypotheses (idToName : List (String × String)) (cs : CorpusState)
    (b : List ScoredTriple) : List Hypothesis :=
  (b.take 200).map (decodeHyp idToName cs)

/-- The training-status snapshot (lines 150-159) after defaulting. -/
structure TrainingStatus where
  epoch : ℤ
  d_loss : ℚ
  g_loss : ℚ
deriving DecidableEq, Repr

/-- The `stats` object of `dashboard_data` (lines 168-177). -/
structure Stats where
  novelty : ℚ
  train_overlap : ℚ
  uniqueness : ℚ
  relation_diversity : ℚ
  avg_distance : ℚ
  schema_validity : ℚ
  total_generated : ℕ
  total_knowledge_base : ℕ
deriving DecidableEq, Repr

/-- The `dashboard_data` object (lines 161-180). -/
structure Report where
  last_updated : String
  training_status : TrainingStatus
  stats : Stats
  relation_freq : List RelFreqEntry
  hypotheses : List Hypothesis
deriving DecidableEq, Repr

/-- Assembly of `dashboard_data` from the computed statistics (lines 80-180),
as a pure function of the parsed batch, the corpus state, the mapping, the
training snapshot and the timestamp. -/
def computeDashboard (idToName : List (String × String)) (cs : CorpusState)
    (b : List ScoredTriple) (ts : TrainingStatus) (now : String) : Report :=
  { last_updated := now
    training_status :=
      { epoch := ts.epoch, d_loss := round4 ts.d_loss, g_loss := round4 ts.g_loss }
    stats :=
      { novelty := round2 (noveltyScore cs b)
        train_overlap := round2 (overlapScore cs b)
        uniqueness := round2 (uniquenessScore b)
        relation_diversity := round2 (relationDiversity cs b)
        avg_distance := round4 (avgDistance b)
        schema_validity := round2 (schemaValidity b)
        total_generated := b.length
        total_knowledge_base := idToName.length }
    relation_freq := relationFreq b
    hypotheses := decodedHypotheses idToName cs b }

/-- The parsed `kg_mappings.json` content: the `id2ent` field may be absent
(`data.get("id2ent", {})` then yields the empty mapping). -/
structure MappingFile where
  id2ent : Option (List (String × String))
deriving DecidableEq

/-- State of a required input file. -/
inductive FileState (α : Type) where
  | missing
  | unparsable
  | ok (val : α)
deriving DecidableEq

/-- The run's inputs at the I/O boundary. -/
structure Env where
  mappings : FileState MappingFile
  corpusLines : Option (List String)
  batch : Option (List ScoredTriple)
  trainingStatus : TrainingStatus
  now : String

/-- Control flow of `main` (lines 21-183): missing mappings file (line 24),
unparsable mappings (line 33), and absent generated batch (line 38) each
return before the single `json.dump` at line 182; otherwise the assembled
report is written once at the end. -/
def mainModel (env : Env) : Option Report :=
  match env.mappings with
  | .missing => none
  | .unparsable => none
  | .ok mf =>
    match env.batch with
    | none => none
    | some b =>
      some (computeDashboard (mf.id2ent.getD []) (loadCorpus env.corpusLines) b
        env.trainingStatus env.now)

/-- A triple none of whose three identifier fields contains the tab
separator — true of every triple parsed from a tab-split line. -/
def TabFree (x : ScoredTriple) : Prop :=
  '\t' ∉ x.h.data ∧ '\t' ∉ x.r.data ∧ '\t' ∉ x.t.data

instance (x : ScoredTriple) : Decidable (TabFree x) := by
  unfold TabFree; infer_instance

/-- Modelled from the spec: "strip a known namespace prefix from the relation
label" — remove the leading `"dblp:"` prefix (only), leaving other labels
unchanged. -/
def stripNamespaceSpec (r : String) : String :=
  if "dblp:".data.isPrefixOf r.data then String.mk (r.data.drop 5) else r

/-- Modelled from the spec: relation diversity whose vocabulary size is the
number of distinct corpus relations when the corpus is available and 15
exactly when it is unavailable, with the usual zero-denominator guard. -/
def relationDiversitySpec (cs : CorpusState) (b : List ScoredTriple) : ℚ :=
  let vocab : ℕ := if cs.active then cs.allRelations.card else 15
  if 0 < vocab then ((usedRelations b : ℚ) / (vocab : ℚ)) * 100 else 0

/-- The schema-validity rule exactly as the original claim words it: a
`"year"`-mapped relation needs an all-DECIMAL-digit (hence non-empty) tail —
decimal digits being `0`-`9` —, an `"author"`-mapped relation needs
`"author"` as a substring of the tail, and everything else is automatically
valid.  This is NOT what the code computes: Python `str.isdigit` accepts
Unicode digit characters beyond `0`-`9`. -/
def SchemaClaimValid (x : ScoredTriple) : Prop :=
  match relation_tail_rules x.r with
  | none => True
  | some rule =>
    if rule = "year" then x.t.data ≠ [] ∧ ∀ c ∈ x.t.data, c.isDigit = true
    else if rule = "author" then List.IsInfix "author".data x.t.data
    else True

/-- The schema-validity rule the code actually implements: as
`SchemaClaimValid`, but a `"year"` tail may consist of any characters
accepted by Python `str.isdigit` (the Unicode digit characters, a strict
superset of `0`-`9`). -/
def SchemaPyValid (x : ScoredTriple) : Prop :=
  match relation_tail_rules x.r with
  | none => True
  | some rule =>
    if rule = "year" then x.t.data ≠ [] ∧ ∀ c ∈ x.t.data, pyCharIsDigit c = true
    else if rule = "author" then List.IsInfix "author".data x.t.data
    else True

section Lemmas

lemma round2_zero : round2 0 = 0 := by
  simp [round2]

lemma round4_zero : round4 0 = 0 := by
  simp [round4]

lemma round2_natCast (n : ℕ) : round2 (n : ℚ) = n := by
  have h : ((n : ℚ) * 100) = ((n * 100 : ℕ) : ℚ) := by push_cast; ring
  rw [round2, h, round_natCast]
  push_cast
  field_simp

lemma abs_round2_sub (q : ℚ) : |round2 q - q| ≤ 1 / 200 := by
  have h := abs_sub_round (q * 100)
  have e : round2 q - q = -((q * 100 - (round (q * 100) : ℤ)) / 100) := by
    rw [round2]; ring
  rw [e, abs_neg, abs_div]
  have h100 : |(100 : ℚ)| = 100 := by norm_num
  rw [h100]
  rw [div_le_div_iff₀ (by norm_num) (by norm_num : (0 : ℚ) < 200)]
  nlinarith [h]

lemma pct_den_zero (n : ℕ) : pct n 0 = 0 := by
  simp [pct]

lemma pct_num_zero (d : ℕ) : pct 0 d = 0 := by
  simp [pct]

lemma pct_self {n : ℕ} (h : 0 < n) : pct n n = 100 := by
  have hn : ((n : ℚ)) ≠ 0 := Nat.cast_ne_zero.mpr h.ne'
  simp [pct, h, div_self hn]

lemma relationFreq_nil : relationFreq [] = [] := rfl

lemma loadCorpus_some_nil : loadCorpus (some []) = ⟨∅, ∅, true⟩ := rfl

lemma novelCount_empty_corpus (a : Bool) (A : Finset String)
    (b : List ScoredTriple) : novelCount ⟨∅, A, a⟩ b = b.length := by
  cases a
  · simp [novelCount]
  · simp [novelCount]

/-- When the loaded key set is empty, the `novelty_check_active` flag has no
influence on the assembled report. -/
lemma computeDashboard_mode_irrelevant (m : List (String × String))
    (A : Finset String) (a a' : Bool) (b : List ScoredTriple)
    (ts : TrainingStatus) (now : String) :
    computeDashboard m ⟨∅, A, a⟩ b ts now
      = computeDashboard m ⟨∅, A, a'⟩ b ts now := by
  have hh : decodedHypotheses m ⟨∅, A, a⟩ b = decodedHypotheses m ⟨∅, A, a'⟩ b := by
    unfold decodedHypotheses
    apply List.map_congr_left
    intro x _
    cases a <;> cases a' <;> simp [decodeHyp]
  unfold computeDashboard noveltyScore overlapScore
  rw [novelCount_empty_corpus, novelCount_empty_corpus, hh]
  rfl

lemma decodedHypotheses_nil (m : List (String × String)) (cs : CorpusState) :
    decodedHypotheses m cs [] = [] := rfl

end Lemmas

/-- C1: on an empty generated batch every ratio statistic of the emitted
report is `0` (the `if total > 0` guards make each division-free), the
relation-frequency table and the hypothesis sample are empty, and the run
still assembles and writes a complete report object. -/
theorem C1_empty_batch_zero_stats (env : Env) (mf : MappingFile)
    (hm : env.mappings = FileState.ok mf)
    (hb : env.batch = some ([] : List ScoredTriple)) :
    ∃ rep : Report, mainModel env = some rep
      ∧ rep.stats.novelty = 0
      ∧ rep.stats.train_overlap = 0
      ∧ rep.stats.uniqueness = 0
      ∧ rep.stats.relation_diversity = 0
      ∧ rep.stats.avg_distance = 0
      ∧ rep.stats.schema_validity = 0
      ∧ rep.relation_freq = []
      ∧ (∀ e ∈ rep.relation_freq, e.percent = 0)
      ∧ rep.hypotheses = []
      ∧ rep.stats.total_generated = 0 := by
  obtain ⟨ms, cl, bt, ts, now⟩ := env
  simp only at hm hb
  subst hm
  subst hb
  refine ⟨computeDashboard (mf.id2ent.getD []) (loadCorpus cl) [] ts now, rfl, ?_⟩
  simp [computeDashboard, noveltyScore, overlapScore, uniquenessScore,
    relationDiversity, avgDistance, schemaValidity, novelCount, uniqueCount,
    usedRelations, relsOf, pct, round2_zero, round4_zero, relationFreq_nil,
    decodedHypotheses_nil]

/-- Closed witness for C1 at a concrete environment. -/
theorem C1_empty_batch_zero_stats_witness :
    ∃ rep : Report,
      mainModel ⟨FileState.ok ⟨none⟩, none, some [], ⟨0, 0, 0⟩, "t"⟩ = some rep
      ∧ rep.stats.novelty = 0
      ∧ rep.stats.train_overlap = 0
      ∧ rep.stats.uniqueness = 0
      ∧ rep.stats.relation_diversity = 0
      ∧ rep.stats.avg_distance = 0
      ∧ rep.stats.schema_validity = 0
      ∧ rep.relation_freq = []
      ∧ (∀ e ∈ rep.relation_freq, e.percent = 0)
      ∧ rep.hypotheses = []
      ∧ rep.stats.total_generated = 0 :=
  C1_empty_batch_zero_stats ⟨FileState.ok ⟨none⟩, none, some [], ⟨0, 0, 0⟩, "t"⟩
    ⟨none⟩ rfl rfl

/-- C2: whenever the reference corpus is unavailable (`novelty_check_active`
is false, covering both the missing file and the failed load) and the batch
is non-empty, the reported novelty is `100`, the reported overlap is `0`,
and every sampled hypothesis carries `is_novel = true`. -/
theorem C2_unavailable_corpus_novelty
    (m : List (String × String)) (cs : CorpusState) (hcs : cs.active = false)
    (b : List ScoredTriple) (hb : b ≠ []) (ts : TrainingStatus) (now : String) :
    (computeDashboard m cs b ts now).stats.novelty = 100
    ∧ (computeDashboard m cs b ts now).stats.train_overlap = 0
    ∧ ∀ hyp ∈ (computeDashboard m cs b ts now).hypotheses,
        hyp.is_novel = true := by
  have hlen : 0 < b.length := List.length_pos.mpr hb
  have hnc : novelCount cs b = b.length := by simp [novelCount, hcs]
  refine ⟨?_, ?_, ?_⟩
  · have : (computeDashboard m cs b ts now).stats.novelty
        = round2 (pct (novelCount cs b) b.length) := rfl
    rw [this, hnc, pct_self hlen]
    have h100 : ((100 : ℚ)) = ((100 : ℕ) : ℚ) := by norm_num
    rw [h100, round2_natCast]
  · have : (computeDashboard m cs b ts now).stats.train_overlap
        = round2 (pct (b.length - novelCount cs b) b.length) := rfl
    rw [this, hnc, Nat.sub_self, pct_num_zero, round2_zero]
  · intro hyp hmem
    simp only [computeDashboard, decodedHypotheses, List.mem_map] at hmem
    obtain ⟨x, _, hx⟩ := hmem
    rw [← hx]
    simp [decodeHyp, hcs]

/-- Closed witness for C2 at a concrete corpus-less run. -/
theorem C2_unavailable_corpus_novelty_witness :
    (computeDashboard [] (loadCorpus none) [⟨"a", "r", "b", 0⟩] ⟨0, 0, 0⟩
        "t").stats.novelty = 100
    ∧ (computeDashboard [] (loadCorpus none) [⟨"a", "r", "b", 0⟩] ⟨0, 0, 0⟩
        "t").stats.train_overlap = 0
    ∧ ∀ hyp ∈ (computeDashboard [] (loadCorpus none) [⟨"a", "r", "b", 0⟩]
        ⟨0, 0, 0⟩ "t").hypotheses, hyp.is_novel = true :=
  C2_unavailable_corpus_novelty [] (loadCorpus none) rfl
    [⟨"a", "r", "b", 0⟩] (by simp) ⟨0, 0, 0⟩ "t"

/-- C3 counterexample: the emitted report has no field — and hence no
consumer-computable function — recording whether the exact novelty check was
active: a run with the corpus present-but-empty (check active) and a run with
the corpus absent (check inactive) emit identical reports. -/
theorem C3_counterexample_no_mode_field :
    ¬ ∃ f : Report → Bool, ∀ (cs : CorpusState) (b : List ScoredTriple)
        (m : List (String × String)) (ts : TrainingStatus) (now : String),
        f (computeDashboard m cs b ts now) = cs.active := by
  rintro ⟨f, hf⟩
  have h₁ := hf (loadCorpus (some [])) [⟨"a", "r", "b", 0⟩] [] ⟨0, 0, 0⟩ "t"
  have h₂ := hf (loadCorpus none) [⟨"a", "r", "b", 0⟩] [] ⟨0, 0, 0⟩ "t"
  have heq : computeDashboard [] (loadCorpus (some [])) [⟨"a", "r", "b", 0⟩]
      ⟨0, 0, 0⟩ "t"
      = computeDashboard [] (loadCorpus none) [⟨"a", "r", "b", 0⟩]
      ⟨0, 0, 0⟩ "t" := by
    rw [loadCorpus_some_nil]
    exact computeDashboard_mode_irrelevant [] ∅ true false _ _ _
  rw [heq] at h₁
  exact absurd (h₁.symm.trans h₂) (by decide)

/-- C3 amended: the report does not make the novelty mode observable — the
`novelty_check_active` flag is only printed to the console, and two runs
that differ exactly in that flag can emit identical reports. -/
theorem C3_amended_mode_unobservable :
    (loadCorpus (some [])).active = true
    ∧ (loadCorpus none).active = false
    ∧ computeDashboard [] (loadCorpus (some [])) [⟨"a", "r", "b", 0⟩]
        ⟨0, 0, 0⟩ "t"
      = computeDashboard [] (loadCorpus none) [⟨"a", "r", "b", 0⟩]
        ⟨0, 0, 0⟩ "t" :=
  ⟨rfl, rfl, by
    rw [loadCorpus_some_nil]
    exact computeDashboard_mode_irrelevant [] ∅ true false _ _ _⟩

/-- C8 counterexample: with the reference corpus available but contributing
no relations (present-but-empty file), the code still uses the fallback
vocabulary 15 — the diversity reported for a one-relation batch is
`round2 (100/15) ≈ 6.67`, not the value the claim's "vocabulary = corpus
relations when available" rule yields. -/
theorem C8_counterexample_available_empty_corpus :
    (loadCorpus (some [])).active = true
    ∧ (loadCorpus (some [])).allRelations.card = 0
    ∧ (computeDashboard [] (loadCorpus (some [])) [⟨"a", "r", "b", 0⟩]
        ⟨0, 0, 0⟩ "t").stats.relation_diversity = round2 ((1 : ℚ) / 15 * 100)
    ∧ round2 (relationDiversitySpec (loadCorpus (some [])) [⟨"a", "r", "b", 0⟩]) = 0
    ∧ round2 ((1 : ℚ) / 15 * 100) ≠ 0 := by
  refine ⟨rfl, by simp [loadCorpus_some_nil], ?_, ?_, ?_⟩
  · have h : relationDiversity ⟨∅, ∅, true⟩ [⟨"a", "r", "b", 0⟩]
        = (1 : ℚ) / 15 * 100 := by
      simp [relationDiversity, totalRelations, usedRelations, relsOf]
    show round2 (relationDiversity (loadCorpus (some [])) [⟨"a", "r", "b", 0⟩])
        = round2 ((1 : ℚ) / 15 * 100)
    rw [loadCorpus_some_nil, h]
  · simp [relationDiversitySpec, loadCorpus_some_nil, round2_zero]
  · have h : round2 ((1 : ℚ) / 15 * 100) = 667 / 100 := by
      unfold round2
      rw [show (1 : ℚ) / 15 * 100 * 100 = 2000 / 3 by norm_num, round_eq]
      norm_num
    rw [h]
    norm_num

/-- C8 amended: relation diversity is the distinct-relations-used over
vocabulary percentage, where the vocabulary size is the number of distinct
relations collected from the corpus when that collection is non-empty, and
the fixed default 15 exactly when the collected relation set is empty
(which includes, but is not limited to, the corpus being unavailable). -/
theorem C8_amended_vocab_fallback (m : List (String × String))
    (cs : CorpusState) (b : List ScoredTriple) (ts : TrainingStatus)
    (now : String) :
    (computeDashboard m cs b ts now).stats.relation_diversity
      = round2 (((usedRelations b : ℚ) /
          (((if cs.allRelations = ∅ then 15 else cs.allRelations.card) : ℕ) : ℚ))
          * 100) := by
  have hpos : 0 < totalRelations cs := by
    by_cases h : cs.allRelations = ∅
    · simp [totalRelations, h]
    · simp only [totalRelations, if_neg h]
      exact Finset.card_pos.mpr (Finset.nonempty_iff_ne_empty.mpr h)
  have hrepr : (computeDashboard m cs b ts now).stats.relation_diversity
      = round2 (relationDiversity cs b) := rfl
  rw [hrepr]
  simp only [relationDiversity, if_pos hpos]
  rfl

/-- C5 counterexample: Python `str.isdigit` accepts Unicode digit characters
beyond the decimal digits `0`-`9`, so the code does NOT decide year-validity
exactly by the all-decimal-digits rule: the year-relation tail `"²"`
(superscript two, accepted by `isdigit`) passes the code's check although it
is not composed of decimal digits. -/
theorem C5_counterexample_unicode_digit :
    tripleIsValid ⟨"x", "dblp:publishedInYear", "²", 0⟩ = true
    ∧ ¬ SchemaClaimValid ⟨"x", "dblp:publishedInYear", "²", 0⟩ := by
  refine ⟨by decide, ?_⟩
  intro hcl
  obtain ⟨-, hall⟩ := hcl
  exact absurd (hall '²' (by decide)) (by decide)

/-- C5 amended: for every triple the code's schema check decides: a
`"year"`-mapped relation is valid iff its tail is non-empty and every
character is accepted by Python `str.isdigit` (the Unicode digit characters,
a strict superset of the decimal digits `0`-`9`); an `"author"`-mapped
relation is valid iff `"author"` occurs in the tail; any other category or
absent rule is valid.  The reported schema-validity is the (rounded)
percentage of triples passing this check; the claim's four examples evaluate
as stated, every decimal digit is still accepted, and the non-decimal digit
`'²'` is also accepted. -/
theorem C5_amended_schema_validity :
    (∀ x : ScoredTriple, tripleIsValid x = true ↔ SchemaPyValid x)
    ∧ (∀ (m : List (String × String)) (cs : CorpusState)
        (b : List ScoredTriple) (ts : TrainingStatus) (now : String),
        (computeDashboard m cs b ts now).stats.schema_validity
          = round2 (pct (b.countP tripleIsValid) b.length))
    ∧ (∀ c : Char, c.isDigit = true → pyCharIsDigit c = true)
    ∧ tripleIsValid ⟨"x", "dblp:publishedInYear", "2021", 0⟩ = true
    ∧ tripleIsValid ⟨"x", "dblp:publishedInYear", "twenty-twenty-one", 0⟩ = false
    ∧ tripleIsValid ⟨"x", "dblp:hasAuthor", "author_42", 0⟩ = true
    ∧ tripleIsValid ⟨"x", "dblp:hasAuthor", "A. Smith", 0⟩ = false
    ∧ pyCharIsDigit '²' = true
    ∧ Char.isDigit '²' = false := by
  refine ⟨?_, fun m cs b ts now => rfl, ?_, by decide, by decide, by decide,
    by decide, by decide, by decide⟩
  · intro x
    unfold tripleIsValid SchemaPyValid
    cases hr : relation_tail_rules x.r with
    | none => simp
    | some rule =>
      by_cases hy : rule = "year"
      · subst hy
        simp [pyIsDigit, List.all_eq_true, List.isEmpty_iff]
      · by_cases ha : rule = "author"
        · subst ha
          simp [hy, strIn]
        · simp [hy, ha]
  · intro c h
    simp only [Char.isDigit, Bool.and_eq_true, decide_eq_true_eq, ge_iff_le] at h
    obtain ⟨h1, h2⟩ := h
    have hlo : 48 ≤ c.toNat := UInt32.le_toNat_of_le (by norm_num) h1
    have hhi : c.toNat ≤ 57 := UInt32.toNat_le_of_le (by norm_num) h2
    unfold pyCharIsDigit
    rw [List.any_eq_true]
    refine ⟨(48, 57), by decide, ?_⟩
    simp only [decide_eq_true_eq]
    exact ⟨hlo, hhi⟩

/-- Closed witness for C5, discharging the decimal-superset hypothesis at a
concrete digit. -/
theorem C5_amended_schema_validity_witness :
    pyCharIsDigit '7' = true
    ∧ tripleIsValid ⟨"x", "dblp:publishedInYear", "2021", 0⟩ = true :=
  ⟨C5_amended_schema_validity.2.2.1 '7' (by decide),
    C5_amended_schema_validity.2.2.2.1⟩

/-- C9: the run produces no report exactly when the mappings file is missing
or unparsable or no generated-batch file exists; in every other case the
single report is assembled and written once, at the end (`json.dump` is the
last statement of `main`, modelled by the `some` result). -/
theorem C9_fatal_conditions_no_output (env : Env) :
    mainModel env = none
      ↔ (env.mappings = FileState.missing
          ∨ env.mappings = FileState.unparsable
          ∨ env.batch = none) := by
  obtain ⟨ms, cl, bt, ts, now⟩ := env
  cases ms with
  | missing => simp [mainModel]
  | unparsable => simp [mainModel]
  | ok mf =>
    cases bt with
    | none => simp [mainModel]
    | some b => simp [mainModel]

/-- C10: a mappings file that parses but lacks the `id2ent` field does not
abort the run: the report is still produced with the empty identifier map,
the reported mapping size is 0, and every sampled hypothesis displays its
raw head and tail identifiers. -/
theorem C10_missing_field_empty_map (env : Env) (b : List ScoredTriple)
    (hm : env.mappings = FileState.ok ⟨none⟩) (hb : env.batch = some b) :
    mainModel env = some (computeDashboard [] (loadCorpus env.corpusLines) b
        env.trainingStatus env.now)
    ∧ (computeDashboard [] (loadCorpus env.corpusLines) b env.trainingStatus
        env.now).stats.total_knowledge_base = 0
    ∧ (∀ k : String, dictGet [] k = k)
    ∧ (∀ i (hi : i < (decodedHypotheses [] (loadCorpus env.corpusLines) b).length)
        (hib : i < b.length),
        ((decodedHypotheses [] (loadCorpus env.corpusLines) b).get ⟨i, hi⟩).head
            = (b.get ⟨i, hib⟩).h
        ∧ ((decodedHypotheses [] (loadCorpus env.corpusLines) b).get ⟨i, hi⟩).tail
            = (b.get ⟨i, hib⟩).t) := by
  obtain ⟨ms, cl, bt, ts, now⟩ := env
  simp only at hm hb
  subst hm; subst hb
  refine ⟨rfl, rfl, fun k => rfl, ?_⟩
  intro i hi hib
  have hkey : ((b.take 200).map (decodeHyp [] (loadCorpus cl))).get ⟨i, hi⟩
      = decodeHyp [] (loadCorpus cl) (b.get ⟨i, hib⟩) := by
    simp [List.get_eq_getElem, List.getElem_map, List.getElem_take]
  exact ⟨by rw [show (decodedHypotheses [] (loadCorpus cl) b).get ⟨i, hi⟩
      = ((b.take 200).map (decodeHyp [] (loadCorpus cl))).get ⟨i, hi⟩ from rfl,
      hkey]; rfl,
    by rw [show (decodedHypotheses [] (loadCorpus cl) b).get ⟨i, hi⟩
      = ((b.take 200).map (decodeHyp [] (loadCorpus cl))).get ⟨i, hi⟩ from rfl,
      hkey]; rfl⟩

/-- Closed witness for C10 at a concrete run. -/
theorem C10_missing_field_empty_map_witness :
    mainModel ⟨FileState.ok ⟨none⟩, none, some [⟨"h1", "r", "t1", 0⟩],
        ⟨0, 0, 0⟩, "t"⟩
      = some (computeDashboard [] (loadCorpus none) [⟨"h1", "r", "t1", 0⟩]
        ⟨0, 0, 0⟩ "t")
    ∧ (computeDashboard [] (loadCorpus none) [⟨"h1", "r", "t1", 0⟩]
        ⟨0, 0, 0⟩ "t").stats.total_knowledge_base = 0
    ∧ (∀ k : String, dictGet [] k = k)
    ∧ (∀ i (hi : i < (decodedHypotheses [] (loadCorpus none)
            [⟨"h1", "r", "t1", 0⟩]).length)
        (hib : i < ([⟨"h1", "r", "t1", 0⟩] : List ScoredTriple).length),
        ((decodedHypotheses [] (loadCorpus none)
            [⟨"h1", "r", "t1", 0⟩]).get ⟨i, hi⟩).head
            = (([⟨"h1", "r", "t1", 0⟩] : List ScoredTriple).get ⟨i, hib⟩).h
        ∧ ((decodedHypotheses [] (loadCorpus none)
            [⟨"h1", "r", "t1", 0⟩]).get ⟨i, hi⟩).tail
            = (([⟨"h1", "r", "t1", 0⟩] : List ScoredTriple).get ⟨i, hib⟩).t) :=
  C10_missing_field_empty_map
    ⟨FileState.ok ⟨none⟩, none, some [⟨"h1", "r", "t1", 0⟩], ⟨0, 0, 0⟩, "t"⟩
    [⟨"h1", "r", "t1", 0⟩] rfl rfl

/-- The joined key as a function of the bare identifier tuple. -/
def tupleKey (p : String × String × String) : String :=
  p.1 ++ "\t" ++ p.2.1 ++ "\t" ++ p.2.2

section TabKey

lemma append_tab_split : ∀ {a₁ a₂ b₁ b₂ : List Char},
    '\t' ∉ a₁ → '\t' ∉ a₂ → a₁ ++ '\t' :: b₁ = a₂ ++ '\t' :: b₂ →
    a₁ = a₂ ∧ b₁ = b₂ := by
  intro a₁
  induction a₁ with
  | nil =>
    intro a₂ b₁ b₂ _ h₂ h
    cases a₂ with
    | nil => simpa using h
    | cons c cs =>
      simp only [List.nil_append, List.cons_append] at h
      obtain ⟨hc, -⟩ := List.cons.inj h
      subst hc
      exact absurd (List.mem_cons_self _ _) h₂
  | cons c cs ih =>
    intro a₂ b₁ b₂ h₁ h₂ h
    cases a₂ with
    | nil =>
      simp only [List.nil_append, List.cons_append] at h
      obtain ⟨hc, -⟩ := List.cons.inj h
      subst hc
      exact absurd (List.mem_cons_self _ _) h₁
    | cons d ds =>
      simp only [List.cons_append] at h
      obtain ⟨hcd, htail⟩ := List.cons.inj h
      have h₁' : '\t' ∉ cs := fun hm => h₁ (List.mem_cons_of_mem _ hm)
      have h₂' : '\t' ∉ ds := fun hm => h₂ (List.mem_cons_of_mem _ hm)
      obtain ⟨he, hbb⟩ := ih h₁' h₂' htail
      exact ⟨by rw [hcd, he], hbb⟩

lemma tripleKey_data (x : ScoredTriple) :
    (tripleKey x).data = x.h.data ++ '\t' :: (x.r.data ++ '\t' :: x.t.data) := by
  simp [tripleKey]

lemma tripleKey_inj {x y : ScoredTriple} (hx : TabFree x) (hy : TabFree y)
    (h : tripleKey x = tripleKey y) : x.h = y.h ∧ x.r = y.r ∧ x.t = y.t := by
  have hd : (tripleKey x).data = (tripleKey y).data := congrArg String.data h
  rw [tripleKey_data, tripleKey_data] at hd
  obtain ⟨hh, hrest⟩ := append_tab_split hx.1 hy.1 hd
  obtain ⟨hr, ht⟩ := append_tab_split hx.2.1 hy.2.1 hrest
  exact ⟨String.ext hh, String.ext hr, String.ext ht⟩

lemma nodup_key_iff_tuple (b : List ScoredTriple)
    (htab : ∀ x ∈ b, TabFree x) :
    (b.map tripleKey).Nodup ↔ (b.map fun x => (x.h, x.r, x.t)).Nodup := by
  have hmap : b.map tripleKey
      = (b.map fun x => (x.h, x.r, x.t)).map tupleKey := by
    rw [List.map_map]
    rfl
  rw [hmap]
  constructor
  · exact List.Nodup.of_map tupleKey
  · intro h
    refine List.Nodup.map_on ?_ h
    intro p hp q hq hpq
    obtain ⟨x, hxb, rfl⟩ := List.mem_map.mp hp
    obtain ⟨y, hyb, rfl⟩ := List.mem_map.mp hq
    obtain ⟨h1, h2, h3⟩ := tripleKey_inj (htab x hxb) (htab y hyb) hpq
    simp [h1, h2, h3]

lemma uniqueCount_le_length (b : List ScoredTriple) :
    uniqueCount b ≤ b.length := by
  have h := (List.dedup_sublist (b.map tripleKey)).length_le
  simpa [uniqueCount] using h

lemma uniquenessScore_le (b : List ScoredTriple) : uniquenessScore b ≤ 100 := by
  unfold uniquenessScore pct
  split
  · rename_i h
    have hle : (uniqueCount b : ℚ) ≤ (b.length : ℚ) :=
      Nat.cast_le.mpr (uniqueCount_le_length b)
    have hpos : (0 : ℚ) < (b.length : ℚ) := by exact_mod_cast h
    have hdiv : (uniqueCount b : ℚ) / (b.length : ℚ) ≤ 1 :=
      (div_le_one hpos).mpr hle
    nlinarith
  · norm_num

lemma uniquenessScore_eq_100_iff (b : List ScoredTriple) (hb : b ≠ []) :
    uniquenessScore b = 100 ↔ (b.map tripleKey).Nodup := by
  have ht : 0 < b.length := List.length_pos.mpr hb
  have htQ : (0 : ℚ) < (b.length : ℚ) := by exact_mod_cast ht
  unfold uniquenessScore pct
  rw [if_pos ht]
  constructor
  · intro h
    have hq : (uniqueCount b : ℚ) = (b.length : ℚ) := by
      field_simp at h
      linarith
    have hn : uniqueCount b = b.length := Nat.cast_inj.mp hq
    have hlen : ((b.map tripleKey).dedup).length = (b.map tripleKey).length := by
      simpa [uniqueCount] using hn
    have heq := (List.dedup_sublist (b.map tripleKey)).eq_of_length hlen
    rw [← List.dedup_eq_self]
    exact heq
  · intro h
    have hn : uniqueCount b = b.length := by
      simp [uniqueCount, List.dedup_eq_self.mpr h]
    rw [hn, div_self (ne_of_gt htQ)]
    norm_num

end TabKey

/-- C4 counterexample: on the empty batch the `(head, relation, tail)` keys
are (vacuously) pairwise distinct, yet the uniqueness score is 0 (division
guard), not 100 — so the claimed "equals 100 iff pairwise distinct" fails
for empty batches. -/
theorem C4_counterexample_empty_batch :
    uniquenessScore [] ≠ 100
    ∧ (([] : List ScoredTriple).map fun x => (x.h, x.r, x.t)).Nodup
    ∧ (computeDashboard [] (loadCorpus none) [] ⟨0, 0, 0⟩ "t").stats.uniqueness
        = 0 := by
  refine ⟨by simp [uniquenessScore, pct], by simp, ?_⟩
  have h0 : uniquenessScore [] = 0 := by simp [uniquenessScore, pct]
  show round2 (uniquenessScore []) = 0
  rw [h0, round2_zero]

/-- C4 amended: for every NON-EMPTY generated batch the uniqueness score is
at most 100 and equals 100 iff all `(head, relation, tail)` keys (of
tab-free fields, as every parsed triple is) are pairwise distinct; the key
excludes the score.  On the empty batch the score is 0 by the division
guard although the distinctness condition holds vacuously. -/
theorem C4_amended_uniqueness (m : List (String × String)) (cs : CorpusState)
    (b : List ScoredTriple) (ts : TrainingStatus) (now : String)
    (hb : b ≠ []) (htab : ∀ x ∈ b, TabFree x) :
    (computeDashboard m cs b ts now).stats.uniqueness
        = round2 (uniquenessScore b)
    ∧ uniquenessScore b ≤ 100
    ∧ (uniquenessScore b = 100
        ↔ (b.map fun x => (x.h, x.r, x.t)).Nodup)
    ∧ (∀ x y : ScoredTriple, x.h = y.h → x.r = y.r → x.t = y.t →
        tripleKey x = tripleKey y) := by
  refine ⟨rfl, uniquenessScore_le b, ?_, ?_⟩
  · exact (uniquenessScore_eq_100_iff b hb).trans (nodup_key_iff_tuple b htab)
  · intro x y h1 h2 h3
    unfold tripleKey
    rw [h1, h2, h3]

/-- Closed witness for C4 at a concrete two-triple batch. -/
theorem C4_amended_uniqueness_witness :
    (computeDashboard [] (loadCorpus none)
        [⟨"a", "r", "b", 0⟩, ⟨"c", "r", "d", 0⟩] ⟨0, 0, 0⟩ "t").stats.uniqueness
      = round2 (uniquenessScore [⟨"a", "r", "b", 0⟩, ⟨"c", "r", "d", 0⟩])
    ∧ uniquenessScore [⟨"a", "r", "b", 0⟩, ⟨"c", "r", "d", 0⟩] ≤ 100
    ∧ (uniquenessScore [⟨"a", "r", "b", 0⟩, ⟨"c", "r", "d", 0⟩] = 100
        ↔ (([⟨"a", "r", "b", 0⟩, ⟨"c", "r", "d", 0⟩] : List ScoredTriple).map
            fun x => (x.h, x.r, x.t)).Nodup)
    ∧ (∀ x y : ScoredTriple, x.h = y.h → x.r = y.r → x.t = y.t →
        tripleKey x = tripleKey y) :=
  C4_amended_uniqueness [] (loadCorpus none)
    [⟨"a", "r", "b", 0⟩, ⟨"c", "r", "d", 0⟩] ⟨0, 0, 0⟩ "t"
    (by simp) (by decide)

section Format

lemma natDigitChar_isDigit (d : ℕ) : (natDigitChar d).isDigit = true := by
  unfold natDigitChar
  have h : d % 10 < 10 := Nat.mod_lt _ (by norm_num)
  revert h
  generalize d % 10 = e
  intro h
  interval_cases e <;> decide

lemma formatScore4_shape (q : ℚ) :
    ∃ pre post : String, formatScore4 q = pre ++ "." ++ post
      ∧ post.length = 4 ∧ post.data.all (fun c => c.isDigit) = true := by
  refine ⟨(if round (q * 10000) < 0 then "-" else "")
      ++ toString ((round (q * 10000)).natAbs / 10000),
    String.mk (pad4 ((round (q * 10000)).natAbs % 10000)), rfl, rfl, ?_⟩
  simp [pad4, natDigitChar_isDigit]

end Format

/-- C6 counterexample: the code removes every occurrence of `"dblp:"` from
the relation label (`str.replace`), which is not prefix-stripping: on the
relation `"dblp:dblp:x"` the sample shows `"x"` while stripping the known
namespace prefix would leave `"dblp:x"`. -/
theorem C6_counterexample_marker_everywhere :
    (decodeHyp [] (loadCorpus none) ⟨"a", "dblp:dblp:x", "b", 0⟩).relation = "x"
    ∧ stripNamespaceSpec "dblp:dblp:x" = "dblp:x"
    ∧ ("x" : String) ≠ "dblp:x" :=
  ⟨by decide, by decide, by decide⟩

/-- C6 amended: the hypothesis sample is exactly the first
`min 200 total` triples in input order; heads and tails are resolved through
the identifier map with fallback to the raw identifier, the score is
rendered with 4 decimal digits, and the displayed relation label has EVERY
occurrence of the namespace marker `"dblp:"` removed (`str.replace`), not
only a leading prefix. -/
theorem C6_amended_sample (m : List (String × String)) (cs : CorpusState)
    (b : List ScoredTriple) (ts : TrainingStatus) (now : String) :
    (computeDashboard m cs b ts now).hypotheses = decodedHypotheses m cs b
    ∧ (decodedHypotheses m cs b).length = min 200 b.length
    ∧ (∀ i (hi : i < (decodedHypotheses m cs b).length) (hib : i < b.length),
        ((decodedHypotheses m cs b).get ⟨i, hi⟩).head
            = dictGet m ((b.get ⟨i, hib⟩).h)
        ∧ ((decodedHypotheses m cs b).get ⟨i, hi⟩).tail
            = dictGet m ((b.get ⟨i, hib⟩).t)
        ∧ ((decodedHypotheses m cs b).get ⟨i, hi⟩).relation
            = pyReplace ((b.get ⟨i, hib⟩).r) "dblp:" ""
        ∧ ((decodedHypotheses m cs b).get ⟨i, hi⟩).score
            = formatScore4 ((b.get ⟨i, hib⟩).score))
    ∧ (∀ k : String, (∀ p ∈ m, p.1 ≠ k) → dictGet m k = k)
    ∧ (∀ q : ℚ, ∃ pre post : String, formatScore4 q = pre ++ "." ++ post
        ∧ post.length = 4 ∧ post.data.all (fun c => c.isDigit) = true) := by
  refine ⟨rfl, by simp [decodedHypotheses], ?_, ?_, formatScore4_shape⟩
  · intro i hi hib
    have hkey : (decodedHypotheses m cs b).get ⟨i, hi⟩
        = decodeHyp m cs (b.get ⟨i, hib⟩) := by
      simp [decodedHypotheses, List.get_eq_getElem, List.getElem_map,
        List.getElem_take]
    rw [hkey]
    exact ⟨rfl, rfl, rfl, rfl⟩
  · intro k hk
    unfold dictGet
    have hf : m.find? (fun p => p.1 == k) = none := by
      rw [List.find?_eq_none]
      intro p hp
      simpa using hk p hp
    rw [hf]

/-- Closed witness for C6 at a concrete one-triple batch. -/
theorem C6_amended_sample_witness :
    (decodedHypotheses [("e1", "Alice")] (loadCorpus none)
        [⟨"e1", "dblp:r1", "e2", 0⟩]).length = min 200 1
    ∧ ((decodedHypotheses [("e1", "Alice")] (loadCorpus none)
        [⟨"e1", "dblp:r1", "e2", 0⟩]).get ⟨0, by decide⟩).head
        = dictGet [("e1", "Alice")] "e1"
    ∧ dictGet [("e1", "Alice")] "zz" = "zz" := by
  have h := C6_amended_sample [("e1", "Alice")] (loadCorpus none)
      [⟨"e1", "dblp:r1", "e2", 0⟩] ⟨0, 0, 0⟩ "t"
  exact ⟨h.2.1, (h.2.2.1 0 (by decide) (by decide)).1,
    h.2.2.2.1 "zz" (by decide)⟩

section Freq

lemma sum_dedup_count (l : List String) :
    (l.dedup.map l.count).sum = l.length := by
  have h := List.sum_toFinset_count_eq_length l
  rw [← h, Finset.sum]
  have hval : (l.toFinset).val = (l.dedup : Multiset String) := rfl
  rw [hval, Multiset.map_coe, Multiset.sum_coe]

lemma roundSumBound : ∀ l : List ℚ,
    |(l.map round2).sum - l.sum| ≤ (l.length : ℚ) / 200 := by
  intro l
  induction l with
  | nil => simp
  | cons q l ih =>
    simp only [List.map_cons, List.sum_cons, List.length_cons]
    calc |round2 q + (l.map round2).sum - (q + l.sum)|
        = |(round2 q - q) + ((l.map round2).sum - l.sum)| := by ring_nf
      _ ≤ |round2 q - q| + |(l.map round2).sum - l.sum| := abs_add _ _
      _ ≤ 1 / 200 + (l.length : ℚ) / 200 := add_le_add (abs_round2_sub q) ih
      _ = ((l.length + 1 : ℕ) : ℚ) / 200 := by push_cast; ring

lemma relationFreq_map_relation (b : List ScoredTriple) :
    ((relationFreq b).map RelFreqEntry.relation).Perm ((relsOf b).dedup) := by
  unfold relationFreq
  have h := (List.perm_insertionSort relLE
    ((relsOf b).dedup.map fun rel =>
      { relation := rel, count := (relsOf b).count rel
        percent := round2 (pct ((relsOf b).count rel) b.length)
        : RelFreqEntry })).map RelFreqEntry.relation
  simpa [List.map_map, Function.comp_def] using h

lemma sum_pct_dedup (b : List ScoredTriple) (hb : b ≠ []) :
    ((relsOf b).dedup.map
        (fun rel => pct ((relsOf b).count rel) b.length)).sum = 100 := by
  have ht : 0 < b.length := List.length_pos.mpr hb
  have hLne : ((b.length : ℚ)) ≠ 0 := Nat.cast_ne_zero.mpr ht.ne'
  simp only [pct, if_pos ht]
  have hstep1 : (relsOf b).dedup.map
        (fun rel => ((relsOf b).count rel : ℚ) / (b.length : ℚ) * 100)
      = (relsOf b).dedup.map
        (fun rel => ((relsOf b).count rel : ℚ) * (100 / (b.length : ℚ))) := by
    apply List.map_congr_left
    intro rel _
    ring
  rw [hstep1, List.sum_map_mul_right]
  have hstep2 : ((relsOf b).dedup.map
        (fun rel => (((relsOf b).count rel : ℕ) : ℚ))).sum
      = ((((relsOf b).dedup.map (relsOf b).count).sum : ℕ) : ℚ) := by
    rw [Nat.cast_list_sum, List.map_map]
    rfl
  rw [hstep2, sum_dedup_count]
  have hlen : (relsOf b).length = b.length := by simp [relsOf]
  rw [hlen]
  field_simp

end Freq

/-- C7: for a non-empty batch the relation-frequency table has exactly one
entry per distinct relation of the batch, is sorted ascending by relation
identifier, and its (2-decimal-rounded) percentages sum to 100 up to the
accumulated rounding error of at most `1/200` per entry. -/
theorem C7_relation_freq_table (m : List (String × String)) (cs : CorpusState)
    (ts : TrainingStatus) (now : String) (b : List ScoredTriple)
    (hb : b ≠ []) :
    (computeDashboard m cs b ts now).relation_freq = relationFreq b
    ∧ ((relationFreq b).map RelFreqEntry.relation).Nodup
    ∧ (∀ r : String,
        r ∈ (relationFreq b).map RelFreqEntry.relation ↔ r ∈ relsOf b)
    ∧ List.Sorted relLE (relationFreq b)
    ∧ |((relationFreq b).map RelFreqEntry.percent).sum - 100|
        ≤ ((relationFreq b).length : ℚ) / 200 := by
  have hperm := relationFreq_map_relation b
  refine ⟨rfl, ?_, ?_, ?_, ?_⟩
  · exact hperm.nodup_iff.mpr (List.nodup_dedup _)
  · intro r
    rw [hperm.mem_iff, List.mem_dedup]
  · exact List.sorted_insertionSort relLE _
  · have hperm2 : ((relationFreq b).map RelFreqEntry.percent).Perm
        (((relsOf b).dedup.map
          (fun rel => pct ((relsOf b).count rel) b.length)).map round2) := by
      unfold relationFreq
      have h := (List.perm_insertionSort relLE
        ((relsOf b).dedup.map fun rel =>
          { relation := rel, count := (relsOf b).count rel
            percent := round2 (pct ((relsOf b).count rel) b.length)
            : RelFreqEntry })).map RelFreqEntry.percent
      refine h.trans ?_
      rw [List.map_map, List.map_map]
      exact List.Perm.refl _
    rw [hperm2.sum_eq]
    have hlenf : (relationFreq b).length = (relsOf b).dedup.length := by
      unfold relationFreq
      rw [List.length_insertionSort, List.length_map]
    rw [hlenf]
    have hbound := roundSumBound
      ((relsOf b).dedup.map (fun rel => pct ((relsOf b).count rel) b.length))
    rw [sum_pct_dedup b hb, List.length_map] at hbound
    exact hbound

/-- Closed witness for C7 at a concrete two-relation batch. -/
theorem C7_relation_freq_table_witness :
    (computeDashboard [] (loadCorpus none)
        [⟨"a", "r2", "b", 0⟩, ⟨"c", "r1", "d", 0⟩] ⟨0, 0, 0⟩ "t").relation_freq
      = relationFreq [⟨"a", "r2", "b", 0⟩, ⟨"c", "r1", "d", 0⟩]
    ∧ ((relationFreq [⟨"a", "r2", "b", 0⟩, ⟨"c", "r1", "d", 0⟩]).map
        RelFreqEntry.relation).Nodup
    ∧ (∀ r : String,
        r ∈ (relationFreq [⟨"a", "r2", "b", 0⟩, ⟨"c", "r1", "d", 0⟩]).map
          RelFreqEntry.relation
        ↔ r ∈ relsOf [⟨"a", "r2", "b", 0⟩, ⟨"c", "r1", "d", 0⟩])
    ∧ List.Sorted relLE (relationFreq [⟨"a", "r2", "b", 0⟩, ⟨"c", "r1", "d", 0⟩])
    ∧ |((relationFreq [⟨"a", "r2", "b", 0⟩, ⟨"c", "r1", "d", 0⟩]).map
        RelFreqEntry.percent).sum - 100|
        ≤ ((relationFreq [⟨"a", "r2", "b", 0⟩, ⟨"c", "r1", "d", 0⟩]).length : ℚ)
          / 200 :=
  C7_relation_freq_table [] (loadCorpus none) ⟨0, 0, 0⟩ "t"
    [⟨"a", "r2", "b", 0⟩, ⟨"c", "r1", "d", 0⟩] (by simp)

end Dashboard
